import Mathlib

/-!
Verification development for the lifetime-reservation repository.

The repository is a small JavaScript automation that books a recurring
weekly activity slot: `src/utils.js` holds the pure date arithmetic, the
schedule-URL builder, the text matcher and the bounded reserve/retry loop;
the unnamed main script computes the target class date and its booking-open
instant, waits until the open instant, and drives the reservation attempt,
setting `process.exitCode = 1` when the attempt rejects.

Dates are embedded as a single integer count of milliseconds since an
epoch that falls on a Sunday at local midnight (`JsDate.epochMs`); the
timezone-free model makes JavaScript calendar-day addition (`setDate`)
exactly a multiple-of-86400000 shift, and `getDay` the day index modulo 7.
JavaScript's `%` on numbers is the truncated remainder, embedded as
`Int.tmod`.  The Playwright surface consulted by the retry loop is
embedded as a trace of per-iteration observations.
-/

namespace LifetimeReservation

/-- Modelled from the spec: `src/constants.js` is imported by the sources but
is missing from the repository snapshot.  The spec and the source comments
("Retries every 350ms up to 5 minutes", "Timed out (5 minutes)") fix the
retry interval at 350 milliseconds. -/
def RESERVE_RETRY_MS : Int := 350

/-- Modelled from the spec: the polling deadline of `clickReserveAndFinish`,
five minutes in milliseconds (see `RESERVE_RETRY_MS` on the missing
`src/constants.js`). -/
def RESERVE_MAX_WAIT_MS : Int := 5 * 60 * 1000

/-- Milliseconds in one calendar day. -/
def MS_PER_DAY : Int := 86400000

/-- A JavaScript `Date`, embedded as its absolute millisecond value.  The
epoch (value 0) is taken to fall on a Sunday at midnight, so the weekday of
day index `k` is `k mod 7` with Sunday = 0, matching `Date#getDay`. -/
structure JsDate where
  epochMs : Int
deriving DecidableEq

/-- Calendar-day index of a date (floor division, so it is correct for
instants before the epoch as well). -/
def dayIndex (d : JsDate) : Int := d.epochMs / MS_PER_DAY

/-- Milliseconds elapsed since the start of the date's calendar day. -/
def msOfDay (d : JsDate) : Int := d.epochMs % MS_PER_DAY

/-- Embeds `Date#getDay`: Sun=0 Mon=1 ... Sat=6. -/
def JsDate.getDay (d : JsDate) : Int := dayIndex d % 7

/-- Embeds the `date.setDate(date.getDate() + n)` idiom: calendar-day
addition preserving the time of day. -/
def addDays (d : JsDate) (n : Int) : JsDate := ⟨d.epochMs + n * MS_PER_DAY⟩

/-- Embeds `Date#setHours(h, m, s, ms)`: replaces the time of day of the
receiver, normalising any overflow into the day count exactly as the
JavaScript time value does. -/
def setHours (d : JsDate) (h m s ms : Int) : JsDate :=
  ⟨d.epochMs - msOfDay d + (3600000 * h + 60000 * m + 1000 * s + ms)⟩

/-- JavaScript's `%` on integers: truncated remainder. -/
def jsRem (a b : Int) : Int := Int.tmod a b

/-- Embeds `msUntilDateTime(targetDate, nowMs)` from `src/utils.js`:
`targetDate.getTime() - nowMs`. -/
def msUntilDateTime (targetDate : JsDate) (nowMs : Int) : Int :=
  targetDate.epochMs - nowMs

/-- Embeds `nextWeekdayOnOrAfter(baseDate, weekday)` from `src/utils.js`:
advance `baseDate` by `(weekday - baseDate.getDay() + 7) % 7` days. -/
def nextWeekdayOnOrAfter (baseDate : JsDate) (weekday : Int) : JsDate :=
  addDays baseDate (jsRem (weekday - baseDate.getDay + 7) 7)

/-- Embeds `computeTargetClassDate(targetWeekday, now)` from `src/utils.js`:
add 7 days to `now`, then snap forward to the target weekday. -/
def computeTargetClassDate (targetWeekday : Int) (now : JsDate) : JsDate :=
  nextWeekdayOnOrAfter (addDays now 7) targetWeekday

/-- Embeds `computeOpenTimeForClass(classDate, hour, minute, second)` from
`src/utils.js`: subtract 8 calendar days, then set the time of day to
`(hour, minute, second, 0)`. -/
def computeOpenTimeForClass (classDate : JsDate) (hour minute second : Int) : JsDate :=
  setHours (addDays classDate (-8)) hour minute second 0

/-- Embeds `withinWindow(now, openAt, earlyMs, lateMs)` from `src/utils.js`. -/
def withinWindow (now openAt : JsDate) (earlyMs lateMs : Int) : Bool :=
  openAt.epochMs - earlyMs ≤ now.epochMs && now.epochMs ≤ openAt.epochMs + lateMs

/-! ### The two wait sites of the main script

The main script contains two wait sites guarded by `USE_WAIT_UNTIL_OPEN`:
the "ready" wait (a plain `sleep(msToReady)` when positive) and the "open"
wait (sleep to 200 ms short of the instant when more than 400 ms away,
then busy-poll).  Each site is embedded as a pure function from the
measured `msUntil` value to a description of the waiting performed. -/

/-- Description of the waiting behaviour a wait site performs. -/
inductive WaitPlan
  /-- Return immediately without suspending or spinning. -/
  | immediate
  /-- Suspend for the given number of milliseconds, no busy-poll after. -/
  | sleepOnly (ms : Int)
  /-- Suspend for the given number of milliseconds, then busy-poll until
  the target instant is reached. -/
  | sleepThenSpin (ms : Int)
  /-- Busy-poll until the target instant is reached, with no suspension. -/
  | spinOnly
deriving DecidableEq

/-- Embeds the "ready" wait site of the main script (`if (USE_WAIT_UNTIL_OPEN)
{ const msToReady = msUntilDateTime(readyAt); if (msToReady > 0) await
sleep(msToReady); }`). -/
def readyWaitPlan (useWaitUntilOpen : Bool) (msToReady : Int) : WaitPlan :=
  if useWaitUntilOpen then
    if msToReady > 0 then WaitPlan.sleepOnly msToReady else WaitPlan.immediate
  else WaitPlan.immediate

/-- Embeds the "open" wait site of the main script: when the flag is set and
`msToOpen > 0`, sleep `msToOpen - 200` if `msToOpen > 400`, then busy-wait
`while (msUntilDateTime(openAt) > 0) {}`. -/
def openWaitPlan (useWaitUntilOpen : Bool) (msToOpen : Int) : WaitPlan :=
  if useWaitUntilOpen then
    if msToOpen > 0 then
      if msToOpen > 400 then WaitPlan.sleepThenSpin (msToOpen - 200)
      else WaitPlan.spinOnly
    else WaitPlan.immediate
  else WaitPlan.immediate

/-- Follows the spec's words, for comparison with the two embedded wait
sites: return immediately if `msUntil(target) ≤ 0`; if `msUntil(target)`
exceeds the 400 ms threshold, suspend for `msUntil(target) - 200`; then
busy-poll until the instant is reached. -/
def specWaitProtocol (msToTarget : Int) : WaitPlan :=
  if msToTarget ≤ 0 then WaitPlan.immediate
  else if msToTarget > 400 then WaitPlan.sleepThenSpin (msToTarget - 200)
  else WaitPlan.spinOnly

/-! ### The reservation attempter -/

/-- Terminal classification of one `clickReserveAndFinish` execution.
`Reserved` and `Waitlisted` are normal returns of the JavaScript function;
`TimedOut` is the `throw new Error("Timed out (5 minutes) ...")` after the
deadline, and `FinishTimedOut` is the rejection of
`finishBtn.waitFor({ timeout: 15000 })` when Finish never appears. -/
inductive Outcome
  | Reserved
  | Waitlisted
  | TimedOut
  | FinishTimedOut
deriving DecidableEq

/-- One run's view of the external Playwright surface: what each polling
iteration of `clickReserveAndFinish` observes.  `pollTime n` is the value
of `Date.now()` at the loop-condition check of iteration `n`;
`finishVisible n` says whether the Finish button appears within its 15 s
bound after Reserve is clicked at iteration `n`. -/
structure SurfaceTrace where
  reserveVisible : Nat → Bool
  waitlistVisible : Nat → Bool
  finishVisible : Nat → Bool
  pollTime : Nat → Int

/-- Result of one `clickReserveAndFinish` execution: the terminal outcome,
how many `page.reload` calls ran (one per fall-through iteration), and how
many times Reserve was clicked. -/
structure AttemptResult where
  outcome : Outcome
  reloads : Nat
  reserveClicks : Nat
deriving DecidableEq

/-- Embeds the polling loop of `clickReserveAndFinish` from `src/utils.js`,
starting at iteration `n`.  Each iteration: if the 5-minute deadline has
passed, throw the timeout error; else if Reserve is visible, click it and
wait for Finish (success, or the bounded wait rejects); else if the
waitlist button is visible, stop retrying and return; else sleep 350 ms,
reload, and poll again.  `fuel` bounds the recursion; `Option.none` means
the fuel ran out before the loop terminated. -/
def reserveLoopAux (tr : SurfaceTrace) (start : Int) : Nat → Nat → Option AttemptResult
  | _, 0 => Option.none
  | n, fuel + 1 =>
    if tr.pollTime n - start < RESERVE_MAX_WAIT_MS then
      if tr.reserveVisible n then
        Option.some ⟨if tr.finishVisible n then Outcome.Reserved else Outcome.FinishTimedOut, n, 1⟩
      else if tr.waitlistVisible n then
        Option.some ⟨Outcome.Waitlisted, n, 0⟩
      else
        reserveLoopAux tr start (n + 1) fuel
    else
      Option.some ⟨Outcome.TimedOut, n, 0⟩

/-- Embeds `clickReserveAndFinish(page)` from `src/utils.js` over a surface
trace: the polling loop entered at iteration 0, with `start` the value of
`Date.now()` recorded before the loop. -/
def clickReserveAndFinish (tr : SurfaceTrace) (start : Int) (fuel : Nat) : Option AttemptResult :=
  reserveLoopAux tr start 0 fuel

/-- Embeds the exit-code plumbing of the main script: `run(...)` resolves
normally when `clickReserveAndFinish` returns (the `Reserved` and
`Waitlisted` paths), leaving `process.exitCode` at its default 0, and the
final `.catch` sets `process.exitCode = 1` when it rejects (the thrown
timeout paths). -/
def processExitCode (res : AttemptResult) : Nat :=
  match res.outcome with
  | Outcome.Reserved => 0
  | Outcome.Waitlisted => 0
  | Outcome.TimedOut => 1
  | Outcome.FinishTimedOut => 1

/-! ### Card matching -/

/-- Embeds `cardMatches(cardText, mustInclude)` from `src/utils.js`:
`mustInclude.every((s) => cardText.includes(s))`, with strings modelled as
character lists and `String#includes` as contiguous-substring occurrence. -/
def cardMatches (cardText : List Char) (mustInclude : List (List Char)) : Bool :=
  mustInclude.all fun s => decide (s <:+: cardText)

/-! ### Schedule URL builder -/

/-- Options object of `buildScheduleUrl`, with the source's default values.
`selectedDate` has no default in the source; `Option.none` models a call
that omits it (JavaScript `undefined`). -/
structure ScheduleUrlOptions where
  clubPath : String := "https://my.lifetime.life/clubs/va/fairfax/classes.html"
  selectedDate : Option String := Option.none
  location : String := "Fairfax"
  interest : String := "Pickleball Open Play"
  mode : String := "week"
  teamMemberView : Bool := true

/-- JavaScript truthiness test of the `selectedDate` option: `undefined`
and the empty string are the falsy string-typed values. -/
def selectedDateFalsy (selectedDate : Option String) : Bool :=
  match selectedDate with
  | Option.none => true
  | Option.some s => s == ""

/-- Embeds `URLSearchParams#set`: replace the value under the key if the
key is present, otherwise append the pair, keeping insertion order. -/
def setParam (ps : List (String × String)) (k v : String) : List (String × String) :=
  if ps.any fun p => p.1 == k then
    ps.map fun p => if p.1 == k then (k, v) else p
  else ps ++ [(k, v)]

/-- Hexadecimal digit used by percent-encoding (uppercase, as
`URLSearchParams` produces). -/
def hexDigit (n : Nat) : Char :=
  if n < 10 then Char.ofNat (48 + n) else Char.ofNat (55 + n)

/-- UTF-8 bytes of a character, for percent-encoding. -/
def utf8Bytes (c : Char) : List Nat :=
  let n := c.toNat
  if n < 128 then [n]
  else if n < 2048 then [192 + n / 64, 128 + n % 64]
  else if n < 65536 then [224 + n / 4096, 128 + n / 64 % 64, 128 + n % 64]
  else [240 + n / 262144, 128 + n / 4096 % 64, 128 + n / 64 % 64, 128 + n % 64]

/-- Percent-encoding of one byte: `%XX`. -/
def percentByte (b : Nat) : List Char :=
  ['%', hexDigit (b / 16), hexDigit (b % 16)]

/-- The `application/x-www-form-urlencoded` serialisation of one component,
as `URLSearchParams#toString` produces it: alphanumerics and `-_.*` kept,
space becomes `+`, everything else percent-encoded byte-wise. -/
def formUrlEncode (s : String) : String :=
  String.mk (s.data.flatMap fun c =>
    if c.isAlphanum || c == '-' || c == '_' || c == '.' || c == '*' then [c]
    else if c == ' ' then ['+']
    else (utf8Bytes c).flatMap percentByte)

/-- Embeds `URLSearchParams#toString`: key=value pairs joined with `&`,
both components form-url-encoded. -/
def serializeParams (ps : List (String × String)) : String :=
  String.intercalate "&" (ps.map fun p => formUrlEncode p.1 ++ "=" ++ formUrlEncode p.2)

/-- Embeds `buildScheduleUrl` from `src/utils.js`: throw when `selectedDate`
is falsy; otherwise set `teamMemberView=true` when the flag is truthy, then
`mode`, `selectedDate`, `interest`, `location`, and return
`clubPath ++ "?" ++ params.toString()`. -/
def buildScheduleUrl (opts : ScheduleUrlOptions) : Except String String :=
  if selectedDateFalsy opts.selectedDate then
    Except.error "buildScheduleUrl requires selectedDate (YYYY-MM-DD)"
  else
    let params0 : List (String × String) := []
    let params1 := if opts.teamMemberView then setParam params0 "teamMemberView" "true" else params0
    let params2 := setParam params1 "mode" opts.mode
    let params3 := setParam params2 "selectedDate" (opts.selectedDate.getD "")
    let params4 := setParam params3 "interest" opts.interest
    let params5 := setParam params4 "location" opts.location
    Except.ok (opts.clubPath ++ "?" ++ serializeParams params5)

/-! ### Helper lemmas -/

/-- Helper: a `JsDate` is determined by its millisecond value. -/
lemma JsDate.ext_ms : ∀ {a b : JsDate}, a.epochMs = b.epochMs → a = b
  | ⟨_⟩, ⟨_⟩, rfl => rfl

/-- Helper: JavaScript's truncated remainder by 7 agrees with the
mathematical remainder on non-negative dividends. -/
lemma jsRem_nonneg_eq_emod (a : Int) (h : 0 ≤ a) : jsRem a 7 = a % 7 :=
  Int.tmod_eq_emod h (by norm_num)

/-- Helper: weekdays are non-negative. -/
lemma getDay_nonneg (d : JsDate) : 0 ≤ d.getDay :=
  Int.emod_nonneg _ (by norm_num)

/-- Helper: weekdays are below 7. -/
lemma getDay_lt (d : JsDate) : d.getDay < 7 :=
  Int.emod_lt_of_pos _ (by norm_num)

/-- Helper: calendar-day addition shifts the day index by exactly the added
count. -/
lemma dayIndex_addDays (d : JsDate) (n : Int) :
    dayIndex (addDays d n) = dayIndex d + n := by
  simp only [dayIndex, addDays, MS_PER_DAY]
  omega

/-- Helper: the weekday after calendar-day addition. -/
lemma getDay_addDays (d : JsDate) (n : Int) :
    (addDays d n).getDay = (d.getDay + n) % 7 := by
  simp only [JsDate.getDay, dayIndex_addDays]
  omega

/-! ### Theorems about the claims -/

/-- C5: `nextWeekdayOnOrAfter(baseDate, weekday)` adds
`(weekday - baseDate.weekday + 7) mod 7` days — an offset satisfying
`0 ≤ diff < 7` — and yields the earliest date on or after `baseDate`
whose weekday equals `weekday`; in particular, when `baseDate` already
falls on `weekday`, the result equals `baseDate` (zero-day advance). -/
theorem nextWeekdayOnOrAfter_correct (d : JsDate) (weekday : Int)
    (h0 : 0 ≤ weekday) (h7 : weekday < 7) :
    0 ≤ jsRem (weekday - d.getDay + 7) 7 ∧
    jsRem (weekday - d.getDay + 7) 7 < 7 ∧
    nextWeekdayOnOrAfter d weekday = addDays d (jsRem (weekday - d.getDay + 7) 7) ∧
    (nextWeekdayOnOrAfter d weekday).getDay = weekday ∧
    d.epochMs ≤ (nextWeekdayOnOrAfter d weekday).epochMs ∧
    (∀ k : Int, dayIndex d ≤ k → k % 7 = weekday →
      dayIndex (nextWeekdayOnOrAfter d weekday) ≤ k) ∧
    (d.getDay = weekday → nextWeekdayOnOrAfter d weekday = d) := by
  have hg0 := getDay_nonneg d
  have hg7 := getDay_lt d
  have hrem : jsRem (weekday - d.getDay + 7) 7 = (weekday - d.getDay + 7) % 7 :=
    jsRem_nonneg_eq_emod _ (by omega)
  have hday : JsDate.getDay d = dayIndex d % 7 := rfl
  refine ⟨?_, ?_, rfl, ?_, ?_, ?_, ?_⟩
  · rw [hrem]; omega
  · rw [hrem]; omega
  · rw [nextWeekdayOnOrAfter, getDay_addDays, hrem, hday] at *
    omega
  · show d.epochMs ≤ (addDays d (jsRem (weekday - d.getDay + 7) 7)).epochMs
    rw [hrem]
    simp only [addDays, MS_PER_DAY]
    have : 0 ≤ (weekday - d.getDay + 7) % 7 := by omega
    nlinarith
  · intro k hk hkw
    rw [nextWeekdayOnOrAfter, dayIndex_addDays, hrem, hday] at *
    omega
  · intro he
    apply JsDate.ext_ms
    rw [nextWeekdayOnOrAfter, hrem, he]
    simp only [addDays, MS_PER_DAY]
    omega

/-- C4: `computeTargetClassDate(targetWeekday, now)` equals
`nextWeekdayOnOrAfter(now + 7 days, targetWeekday)`, its weekday equals
`targetWeekday`, and it lies between `now + 7 days` and `now + 13 days`
inclusive. -/
theorem computeTargetClassDate_correct (targetWeekday : Int) (now : JsDate)
    (h0 : 0 ≤ targetWeekday) (h7 : targetWeekday < 7) :
    computeTargetClassDate targetWeekday now
      = nextWeekdayOnOrAfter (addDays now 7) targetWeekday ∧
    (computeTargetClassDate targetWeekday now).getDay = targetWeekday ∧
    (addDays now 7).epochMs ≤ (computeTargetClassDate targetWeekday now).epochMs ∧
    (computeTargetClassDate targetWeekday now).epochMs ≤ (addDays now 13).epochMs := by
  obtain ⟨hd0, hd7, _, hwd, hge, -, -⟩ :=
    nextWeekdayOnOrAfter_correct (addDays now 7) targetWeekday h0 h7
  refine ⟨rfl, hwd, hge, ?_⟩
  show (addDays (addDays now 7) (jsRem (targetWeekday - (addDays now 7).getDay + 7) 7)).epochMs
    ≤ (addDays now 13).epochMs
  simp only [addDays, MS_PER_DAY] at hd0 hd7 ⊢
  nlinarith [hd0, hd7]

/-- Witness for C5: from a Monday (day index 1), weekday 3 (Wednesday) is
reached by a 2-day advance. -/
theorem nextWeekdayOnOrAfter_correct_witness :
    (nextWeekdayOnOrAfter ⟨86400000⟩ 3).getDay = 3 ∧
    nextWeekdayOnOrAfter ⟨86400000⟩ 3 = ⟨3 * 86400000⟩ := by
  have h := nextWeekdayOnOrAfter_correct ⟨86400000⟩ 3 (by decide) (by decide)
  exact ⟨h.2.2.2.1, by decide⟩

/-- Witness for C4: from the epoch Sunday, the target Monday is day 8, which
lies between day 7 and day 13. -/
theorem computeTargetClassDate_correct_witness :
    (computeTargetClassDate 1 ⟨0⟩).getDay = 1 ∧
    (addDays ⟨0⟩ 7).epochMs ≤ (computeTargetClassDate 1 ⟨0⟩).epochMs ∧
    (computeTargetClassDate 1 ⟨0⟩).epochMs ≤ (addDays ⟨0⟩ 13).epochMs := by
  have h := computeTargetClassDate_correct 1 ⟨0⟩ (by decide) (by decide)
  exact ⟨h.2.1, h.2.2.1, h.2.2.2⟩

/-- C6: `computeOpenTimeForClass(classDate, hour, minute, second)` equals
`classDate - 8 days` with the time of day set to `(hour, minute, second, 0)`:
its day index is `classDate`'s minus 8, its time of day is exactly the given
clock time, and the result is determined by the inputs alone. -/
theorem computeOpenTimeForClass_correct (classDate : JsDate) (hour minute second : Int)
    (hh0 : 0 ≤ hour) (hh : hour < 24) (hm0 : 0 ≤ minute) (hm : minute < 60)
    (hs0 : 0 ≤ second) (hs : second < 60) :
    computeOpenTimeForClass classDate hour minute second
      = setHours (addDays classDate (-8)) hour minute second 0 ∧
    dayIndex (computeOpenTimeForClass classDate hour minute second)
      = dayIndex classDate - 8 ∧
    msOfDay (computeOpenTimeForClass classDate hour minute second)
      = 3600000 * hour + 60000 * minute + 1000 * second ∧
    computeOpenTimeForClass classDate hour minute second
      = computeOpenTimeForClass classDate hour minute second := by
  refine ⟨rfl, ?_, ?_, rfl⟩ <;>
  · simp only [computeOpenTimeForClass, setHours, addDays, dayIndex, msOfDay, MS_PER_DAY]
    omega

/-- Witness for C6: a class on day 10 at 20:00:00 opens on day 2 with
72000000 ms of day elapsed. -/
theorem computeOpenTimeForClass_correct_witness :
    dayIndex (computeOpenTimeForClass ⟨10 * 86400000⟩ 20 0 0) = 2 ∧
    msOfDay (computeOpenTimeForClass ⟨10 * 86400000⟩ 20 0 0) = 72000000 := by
  have h := computeOpenTimeForClass_correct ⟨10 * 86400000⟩ 20 0 0
    (by decide) (by decide) (by decide) (by decide) (by decide) (by decide)
  exact ⟨by rw [h.2.1]; decide, by rw [h.2.2.1]; decide⟩

/-- C7: for the session window the run produces — `classDate` from
`computeTargetClassDate` and `openAt` from `computeOpenTimeForClass` with a
valid clock time (hour in 0..23) — the booking-open instant is strictly
before the start of `classDate`'s calendar day. -/
theorem openAt_strictly_before_classDate (targetWeekday hour minute second : Int)
    (now : JsDate)
    (hw0 : 0 ≤ targetWeekday) (hw7 : targetWeekday < 7)
    (hh0 : 0 ≤ hour) (hh : hour < 24) (hm0 : 0 ≤ minute) (hm : minute < 60)
    (hs0 : 0 ≤ second) (hs : second < 60) :
    (computeOpenTimeForClass (computeTargetClassDate targetWeekday now)
        hour minute second).epochMs
      < dayIndex (computeTargetClassDate targetWeekday now) * MS_PER_DAY := by
  generalize computeTargetClassDate targetWeekday now = cd
  simp only [computeOpenTimeForClass, setHours, addDays, dayIndex, msOfDay, MS_PER_DAY]
  omega

/-- Witness for C7: from the epoch Sunday targeting a Monday class at
20:00:00, the open instant precedes the class day's start. -/
theorem openAt_strictly_before_classDate_witness :
    (computeOpenTimeForClass (computeTargetClassDate 1 ⟨0⟩) 20 0 0).epochMs
      < dayIndex (computeTargetClassDate 1 ⟨0⟩) * MS_PER_DAY :=
  openAt_strictly_before_classDate 1 20 0 0 ⟨0⟩
    (by decide) (by decide) (by decide) (by decide) (by decide) (by decide)
    (by decide) (by decide)

/-- C3 counterexample: with synchronization enabled and 1000 ms to the ready
instant, the ready wait site sleeps the full 1000 ms with no busy-poll,
whereas the spec's wait protocol prescribes sleeping 800 ms and then
spinning — so the protocol is not applied at the ready site. -/
theorem readyWait_differs_from_specProtocol :
    readyWaitPlan true 1000 = WaitPlan.sleepOnly 1000 ∧
    specWaitProtocol 1000 = WaitPlan.sleepThenSpin 800 ∧
    readyWaitPlan true 1000 ≠ specWaitProtocol 1000 := by
  refine ⟨by decide, by decide, by decide⟩

/-- C3 (amended): with synchronization enabled, the spec's wait protocol —
immediate return when past, sleep shortened by the 200 ms guard above the
400 ms threshold, then busy-poll — is applied exactly once per run, at the
open instant; the ready wait site instead returns immediately when
`msUntil(readyAt) ≤ 0` and otherwise suspends for the full remaining time
with no threshold and no busy-poll. -/
theorem waitProtocol_once_per_run (ms : Int) :
    openWaitPlan true ms = specWaitProtocol ms ∧
    (0 < ms → readyWaitPlan true ms = WaitPlan.sleepOnly ms) ∧
    (ms ≤ 0 → readyWaitPlan true ms = WaitPlan.immediate) := by
  refine ⟨?_, fun h => ?_, fun h => ?_⟩
  · simp only [openWaitPlan, specWaitProtocol, if_true]
    split_ifs <;> first | rfl | omega
  · simp only [readyWaitPlan, if_true]
    rw [if_pos h]
  · simp only [readyWaitPlan, if_true]
    rw [if_neg (by omega)]

/-- Witness for the amended C3 at 1000 ms to open and 5 ms to ready. -/
theorem waitProtocol_once_per_run_witness :
    openWaitPlan true 1000 = specWaitProtocol 1000 ∧
    readyWaitPlan true 5 = WaitPlan.sleepOnly 5 :=
  ⟨(waitProtocol_once_per_run 1000).1, (waitProtocol_once_per_run 5).2.1 (by decide)⟩

/-- Surface trace on which the waitlist indicator is visible from the first
poll and the reserve control never appears; polls advance 350 ms apart. -/
def waitlistedTrace : SurfaceTrace where
  reserveVisible := fun _ => false
  waitlistVisible := fun _ => true
  finishVisible := fun _ => false
  pollTime := fun n => 350 * (n : Int)

/-- Surface trace on which neither the reserve control nor the waitlist
indicator ever appears; polls advance 350 ms apart. -/
def silentTrace : SurfaceTrace where
  reserveVisible := fun _ => false
  waitlistVisible := fun _ => false
  finishVisible := fun _ => false
  pollTime := fun n => 350 * (n : Int)

/-- C1 counterexample: a run whose attempt ends in the `Waitlisted` outcome
(waitlist seen on the first poll, `clickReserveAndFinish` stops retrying and
returns normally) terminates with process exit code 0, not a non-zero
code. -/
theorem waitlisted_exit_zero_counterexample :
    clickReserveAndFinish waitlistedTrace 0 5
      = Option.some ⟨Outcome.Waitlisted, 0, 0⟩ ∧
    processExitCode ⟨Outcome.Waitlisted, 0, 0⟩ = 0 := by
  exact ⟨by decide, rfl⟩

/-- C1 (amended): when the reservation attempt ends in the `Waitlisted`
outcome, `clickReserveAndFinish` returns normally, `run` resolves, and the
process exit code is 0 — the waitlist outcome is not routed through the
failure path. -/
theorem waitlisted_outcome_exit_zero (tr : SurfaceTrace) (start : Int) (fuel : Nat)
    (res : AttemptResult)
    (h : clickReserveAndFinish tr start fuel = Option.some res)
    (ho : res.outcome = Outcome.Waitlisted) :
    processExitCode res = 0 := by
  simp [processExitCode, ho]

/-- Witness for the amended C1 on the concrete waitlisted trace. -/
theorem waitlisted_outcome_exit_zero_witness :
    processExitCode ⟨Outcome.Waitlisted, 0, 0⟩ = 0 :=
  waitlisted_outcome_exit_zero waitlistedTrace 0 5 ⟨Outcome.Waitlisted, 0, 0⟩
    (by decide) rfl

/-- C2: if on the first polling iteration (within the deadline) the reserve
control is not visible but the waitlist indicator is, `clickReserveAndFinish`
returns at once with the `Waitlisted` outcome — no reserve click, no reload,
no further iterations — and the process exit code is 0. -/
theorem waitlist_first_poll_clean_exit (tr : SurfaceTrace) (start : Int) (fuel : Nat)
    (hfuel : 1 ≤ fuel)
    (htime : tr.pollTime 0 - start < RESERVE_MAX_WAIT_MS)
    (hres : tr.reserveVisible 0 = false)
    (hwl : tr.waitlistVisible 0 = true) :
    clickReserveAndFinish tr start fuel = Option.some ⟨Outcome.Waitlisted, 0, 0⟩ ∧
    processExitCode ⟨Outcome.Waitlisted, 0, 0⟩ = 0 := by
  obtain ⟨k, rfl⟩ : ∃ k, fuel = k + 1 := ⟨fuel - 1, by omega⟩
  refine ⟨?_, rfl⟩
  simp [clickReserveAndFinish, reserveLoopAux, htime, hres, hwl]

/-- Witness for C2 on the concrete waitlisted trace with fuel 1. -/
theorem waitlist_first_poll_clean_exit_witness :
    clickReserveAndFinish waitlistedTrace 0 1
      = Option.some ⟨Outcome.Waitlisted, 0, 0⟩ ∧
    processExitCode ⟨Outcome.Waitlisted, 0, 0⟩ = 0 :=
  waitlist_first_poll_clean_exit waitlistedTrace 0 1 (by decide) (by decide) rfl rfl

/-- Helper: one-step unfolding of the polling loop. -/
lemma reserveLoopAux_step (tr : SurfaceTrace) (start : Int) (n fuel : Nat) :
    reserveLoopAux tr start n (fuel + 1) =
      if tr.pollTime n - start < RESERVE_MAX_WAIT_MS then
        if tr.reserveVisible n then
          Option.some ⟨if tr.finishVisible n then Outcome.Reserved
            else Outcome.FinishTimedOut, n, 1⟩
        else if tr.waitlistVisible n then
          Option.some ⟨Outcome.Waitlisted, n, 0⟩
        else
          reserveLoopAux tr start (n + 1) fuel
      else
        Option.some ⟨Outcome.TimedOut, n, 0⟩ := rfl

/-- Helper: when neither control ever shows, the polling loop of
`clickReserveAndFinish` reaches its deadline and reports the timeout, for
any fuel covering the remaining budget at 350 ms per iteration. -/
lemma reserveLoopAux_timeout (tr : SurfaceTrace) (start : Int)
    (hres : ∀ n, tr.reserveVisible n = false)
    (hwl : ∀ n, tr.waitlistVisible n = false)
    (hprog : ∀ n, tr.pollTime n + RESERVE_RETRY_MS ≤ tr.pollTime (n + 1)) :
    ∀ (fuel n : Nat),
      RESERVE_MAX_WAIT_MS ≤ tr.pollTime n - start + (fuel : Int) * RESERVE_RETRY_MS →
      ∃ m, reserveLoopAux tr start n (fuel + 1) = Option.some ⟨Outcome.TimedOut, m, 0⟩ := by
  intro fuel
  induction fuel with
  | zero =>
    intro n hb
    refine ⟨n, ?_⟩
    rw [reserveLoopAux_step,
      if_neg (by simp only [RESERVE_MAX_WAIT_MS, RESERVE_RETRY_MS] at hb ⊢; push_cast at hb; omega)]
  | succ k ih =>
    intro n hb
    by_cases hlt : tr.pollTime n - start < RESERVE_MAX_WAIT_MS
    · have hstep := hprog n
      simp only [RESERVE_RETRY_MS] at hstep
      obtain ⟨m, hm⟩ := ih (n + 1)
        (by simp only [RESERVE_MAX_WAIT_MS, RESERVE_RETRY_MS] at hb ⊢; push_cast at hb ⊢; omega)
      refine ⟨m, ?_⟩
      rw [reserveLoopAux_step, if_pos hlt]
      simp [hres n, hwl n, hm]
    · refine ⟨n, ?_⟩
      rw [reserveLoopAux_step, if_neg hlt]

/-- C8: if throughout the polling window neither the reserve control nor the
waitlist indicator ever becomes visible, and each iteration advances
wall-clock time by at least the 350 ms retry interval, then
`clickReserveAndFinish` ends by throwing the timeout error after the
5-minute deadline and the process exit code is non-zero (1). -/
theorem timeout_after_deadline_nonzero_exit (tr : SurfaceTrace) (start : Int) (fuel : Nat)
    (hres : ∀ n, tr.reserveVisible n = false)
    (hwl : ∀ n, tr.waitlistVisible n = false)
    (hprog : ∀ n, tr.pollTime n + RESERVE_RETRY_MS ≤ tr.pollTime (n + 1))
    (hstart : start ≤ tr.pollTime 0)
    (hfuel : 859 ≤ fuel) :
    ∃ m, clickReserveAndFinish tr start fuel = Option.some ⟨Outcome.TimedOut, m, 0⟩ ∧
      processExitCode ⟨Outcome.TimedOut, m, 0⟩ = 1 := by
  obtain ⟨k, rfl⟩ : ∃ k, fuel = k + 1 := ⟨fuel - 1, by omega⟩
  obtain ⟨m, hm⟩ := reserveLoopAux_timeout tr start hres hwl hprog k 0
    (by simp only [RESERVE_MAX_WAIT_MS, RESERVE_RETRY_MS]; push_cast; omega)
  exact ⟨m, hm, rfl⟩

/-- Witness for C8 on the concrete silent trace with fuel 859. -/
theorem timeout_after_deadline_nonzero_exit_witness :
    ∃ m, clickReserveAndFinish silentTrace 0 859
        = Option.some ⟨Outcome.TimedOut, m, 0⟩ ∧
      processExitCode ⟨Outcome.TimedOut, m, 0⟩ = 1 :=
  timeout_after_deadline_nonzero_exit silentTrace 0 859
    (fun _ => rfl) (fun _ => rfl)
    (fun n => by simp [silentTrace, RESERVE_RETRY_MS, mul_add])
    (by decide) (by decide)

/-- C9: `cardMatches(text, criteria)` is true exactly when every string in
`criteria` occurs as a substring of `text`; it is false when some criterion
is missing, true on empty criteria, and invariant under reordering of the
criteria. -/
theorem cardMatches_correct (t : List Char) (c : List (List Char)) :
    (cardMatches t c = true ↔ ∀ s ∈ c, s <:+: t) ∧
    cardMatches t [] = true ∧
    ((∃ s ∈ c, ¬ s <:+: t) → cardMatches t c = false) ∧
    (∀ c2, c.Perm c2 → cardMatches t c = cardMatches t c2) := by
  have key : ∀ cs : List (List Char), cardMatches t cs = true ↔ ∀ s ∈ cs, s <:+: t := by
    intro cs
    simp [cardMatches]
  refine ⟨key c, rfl, ?_, ?_⟩
  · rintro ⟨s, hs, hns⟩
    cases h : cardMatches t c
    · rfl
    · exact absurd ((key c).1 h s hs) hns
  · intro c2 hp
    cases h2 : cardMatches t c2
    · cases h1 : cardMatches t c
      · rfl
      · have := (key c2).2 fun s hs => (key c).1 h1 s (hp.mem_iff.mpr hs)
        rw [this] at h2
        exact absurd h2 (by simp)
    · exact (key c).2 fun s hs => (key c2).1 h2 s (hp.mem_iff.mp hs)

/-- Witness for C9 on concrete texts and criteria. -/
theorem cardMatches_correct_witness :
    cardMatches ['a', 'b', 'c'] [['b', 'c'], ['a']] = true ∧
    cardMatches ['a', 'b', 'c'] [] = true ∧
    cardMatches ['a', 'b', 'c'] [['z']] = false := by
  refine ⟨?_, (cardMatches_correct ['a', 'b', 'c'] []).2.1, ?_⟩
  · exact (cardMatches_correct ['a', 'b', 'c'] [['b', 'c'], ['a']]).1.2 (by decide)
  · exact (cardMatches_correct ['a', 'b', 'c'] [['z']]).2.2.1 ⟨['z'], by decide, by decide⟩

/-- C10: `buildScheduleUrl` fails exactly when its `selectedDate` option is
absent or empty (falsy); on any call with a truthy `selectedDate` it returns
the club path followed by `?` and the serialised query parameters — `mode`,
`selectedDate`, `interest` and `location`, preceded by `teamMemberView=true`
exactly when the `teamMemberView` option is truthy. -/
theorem buildScheduleUrl_correct (opts : ScheduleUrlOptions) :
    (selectedDateFalsy opts.selectedDate = true →
      buildScheduleUrl opts
        = Except.error "buildScheduleUrl requires selectedDate (YYYY-MM-DD)") ∧
    (∀ sd, opts.selectedDate = Option.some sd → sd ≠ "" →
      buildScheduleUrl opts = Except.ok (opts.clubPath ++ "?" ++ serializeParams
        ((if opts.teamMemberView then [("teamMemberView", "true")] else []) ++
          [("mode", opts.mode), ("selectedDate", sd),
           ("interest", opts.interest), ("location", opts.location)]))) := by
  constructor
  · intro h
    simp [buildScheduleUrl, h]
  · intro sd hsd hne
    have hf : selectedDateFalsy opts.selectedDate = false := by
      simp [selectedDateFalsy, hsd, hne]
    cases htv : opts.teamMemberView <;>
      simp [buildScheduleUrl, selectedDateFalsy, hne, hsd, htv, setParam]

/-- Witness for C10: the default options with a concrete selected date. -/
theorem buildScheduleUrl_correct_witness :
    buildScheduleUrl { selectedDate := Option.some "2026-03-02" }
      = Except.ok ("https://my.lifetime.life/clubs/va/fairfax/classes.html?"
          ++ serializeParams [("teamMemberView", "true"), ("mode", "week"),
              ("selectedDate", "2026-03-02"), ("interest", "Pickleball Open Play"),
              ("location", "Fairfax")]) := by
  have h := (buildScheduleUrl_correct { selectedDate := Option.some "2026-03-02" }).2
    "2026-03-02" rfl (by decide)
  simpa using h

end LifetimeReservation
